import Mathlib

/-! TransformationHWv1: the column-major 4x4 transform library of `glutil.h`

A shallow embedding of `struct Matrix4` and of `multiply`, `rotate`, `translate`
and `scale` (glutil.h, lines 130-217), together with the per-frame model matrix
built by the render loop of `Main.cpp` (lines 87-90).

`GLfloat` arithmetic is taken exactly: the entries range over a commutative
ring `α`.  The library functions `cos` and `sin` that `rotate` calls are
parameters of the embedding.
-/

namespace TransformationHW

/-! ## Data model -/

/-- The `struct Matrix4`: its only member is `GLfloat data[16]`. -/
structure Matrix4 (α : Type) where
  data : Fin 16 → α

/-- The linear index `i + j * 4` used by every loop of the source (row `i`, column `j`). -/
def idx (i j : Fin 4) : Fin 16 := ⟨i.val + j.val * 4, by omega⟩

/-- The assignment `m.data[n] = v`. -/
def Matrix4.write {α : Type} (m : Matrix4 α) (n : Fin 16) (v : α) : Matrix4 α :=
  ⟨Function.update m.data n v⟩

/-- A matrix given by its (row, column) entries, stored column-major: the element of
row `r` and column `c` goes to the linear index `c * 4 + r` (spec 3). -/
def ofRowCol {α : Type} (f : Fin 4 → Fin 4 → α) : Matrix4 α :=
  ⟨fun m => f ⟨m.val % 4, by omega⟩ ⟨m.val / 4, by omega⟩⟩

/-- The loop `for (int i = 0; i < 4; i++) body`, threading the state `s` through the
four iterations in increasing order of `i`. -/
def forRange4 {σ : Type} (body : Fin 4 → σ → σ) (s : σ) : σ :=
  (List.finRange 4).foldl (fun acc i => body i acc) s

section Ring

variable {α : Type} [CommRing α]

/-- The constructor `Matrix4()` run on the storage `raw`:
`data[i + j * 4] = i == j ? 1.f : 0.f` for `i`, `j` in `0..3`. -/
def Matrix4.ctor (raw : Matrix4 α) : Matrix4 α :=
  forRange4 (fun i => forRange4 (fun j m => m.write (idx i j) (if i = j then 1 else 0))) raw

/-- A default-constructed `Matrix4` (the constructor overwrites all sixteen cells of the
storage it starts from, see `ctor_raw`), here started from zeros. -/
def identity : Matrix4 α := Matrix4.ctor ⟨fun _ => 0⟩

/-- The local variables of `multiply`: the by-value parameters `a`, `b` and `result`. -/
structure MultiplyFrame (α : Type) where
  a : Matrix4 α
  b : Matrix4 α
  result : Matrix4 α

/-- The body of the `j` loop of `multiply`:
`result.data[i + j*4] = 0.f; for k: result.data[i + j*4] += a.data[i + k*4] * b.data[k + j*4]`. -/
def multiplyBody (i j : Fin 4) (f : MultiplyFrame α) : MultiplyFrame α :=
  forRange4
    (fun k g =>
      let v := g.result.data (idx i j) + g.a.data (idx i k) * g.b.data (idx k j)
      { g with result := g.result.write (idx i j) v })
    { f with result := f.result.write (idx i j) 0 }

/-- The frame of `multiply(a, b)` when the loops have run. -/
def multiplyRun (a b : Matrix4 α) : MultiplyFrame α :=
  forRange4 (fun i => forRange4 (fun j => multiplyBody i j)) ⟨a, b, identity⟩

/-- The function `multiply(a, b)`: the `result` it returns. -/
def multiply (a b : Matrix4 α) : Matrix4 α := (multiplyRun a b).result

/-- The local `result` of `rotate` just before its `return`: a default-constructed matrix
whose nine upper-left cells are overwritten, in the order of the source. -/
def rotateResult (cos sin : α → α) (a x y z : α) : Matrix4 α :=
  let result : Matrix4 α := identity
  let result := result.write 0 (cos a + (x * x) * (1 - cos a))
  let result := result.write 1 (y * x * (1 - cos a) + z * sin a)
  let result := result.write 2 (z * x * (1 - cos a) - y * sin a)
  let result := result.write 4 (x * y * (1 - cos a) - z * sin a)
  let result := result.write 5 (cos a + (y * y) * (1 - cos a))
  let result := result.write 6 (z * y * (1 - cos a) + x * sin a)
  let result := result.write 8 (x * z * (1 - cos a) + y * sin a)
  let result := result.write 9 (y * z * (1 - cos a) - x * sin a)
  let result := result.write 10 (cos a + (z * z) * (1 - cos a))
  result

/-- The function `rotate(mat, a, x, y, z)`; it ends in `return multiply(mat, result)`.
The angle `a` is handed to `cos` and `sin` as it comes. -/
def rotate (cos sin : α → α) (mat : Matrix4 α) (a x y z : α) : Matrix4 α :=
  multiply mat (rotateResult cos sin a x y z)

/-- The local `result` of `translate` just before its `return`. -/
def translateResult (x y z : α) : Matrix4 α :=
  let result : Matrix4 α := identity
  let result := result.write 12 x
  let result := result.write 13 y
  let result := result.write 14 z
  result

/-- The function `translate(mat, x, y, z)`; it ends in `return multiply(mat, result)`. -/
def translate (mat : Matrix4 α) (x y z : α) : Matrix4 α :=
  multiply mat (translateResult x y z)

/-- The local `result` of `scale` just before its `return`. -/
def scaleResult (x y z : α) : Matrix4 α :=
  let result : Matrix4 α := identity
  let result := result.write 0 x
  let result := result.write 5 y
  let result := result.write 10 z
  result

/-- The function `scale(mat, x, y, z)`; it ends in `return multiply(mat, result)`. -/
def scale (mat : Matrix4 α) (x y z : α) : Matrix4 α :=
  multiply mat (scaleResult x y z)

/-- Modelled from the spec: the matrix-vector product of the "matrix transforms a column
vector on its right" convention (spec 4.6, 8).  It is computed by the vertex shader
`simple.vsh`, which is not among the source files; the matrix is uploaded column-major
(`glUniformMatrix4fv` with `GL_FALSE`), so the element of row `i` and column `k`
is `data[i + 4 * k]`. -/
def applyTo (m : Matrix4 α) (v : Fin 4 → α) : Fin 4 → α :=
  fun i => ∑ k : Fin 4, m.data (idx i k) * v k

/-- The matrix `T` in the words of spec 4.4: the identity with the elements of rows `0..2`
of column `3` set to `x`, `y`, `z`. -/
def specTranslation (x y z : α) : Matrix4 α :=
  ofRowCol fun r c =>
    if r = 0 ∧ c = 3 then x else if r = 1 ∧ c = 3 then y else if r = 2 ∧ c = 3 then z
    else if r = c then 1 else 0

/-- The matrix `S` in the words of spec 4.5: the identity with the diagonal entries
`(0,0)`, `(1,1)`, `(2,2)` replaced by `x`, `y`, `z`. -/
def specScaling (x y z : α) : Matrix4 α :=
  ofRowCol fun r c =>
    if r = 0 ∧ c = 0 then x else if r = 1 ∧ c = 1 then y else if r = 2 ∧ c = 2 then z
    else if r = c then 1 else 0

/-- The upper-left 3x3 block of a matrix: rows and columns `0..2`. -/
def block3 (m : Matrix4 α) (i j : Fin 3) : α := m.data (idx i.castSucc j.castSucc)

end Ring

/-! ## The render loop's model matrix (`Main.cpp`, lines 87-90) -/

/-- The matrix `model` uploaded by one iteration of the render loop; `t₁`, `t₂`, `t₃` are
the values returned by the three calls of `glfwGetTime()`. -/
def model {α : Type} [Field α] (cos sin : α → α) (t₁ t₂ t₃ : α) : Matrix4 α :=
  let model : Matrix4 α := identity
  let model := translate model (0.75 * sin (2.5 * t₁)) (0.75 * cos (2.5 * t₂)) 0
  let model := rotate cos sin model (250 * t₃) 0 0 1
  let model := scale model 0.35 0.35 0.35
  model

/-! ## The bounds assertion of `Matrix4::get` and `Matrix4::set` -/

/-- Conversion of an `int` to `GLuint` (unsigned, 32 bits): reduction modulo `2 ^ 32`. -/
def toGLuint (z : Int) : Nat := (z % 2 ^ 32).toNat

/-- The asserted condition `row > -1 || row < 4 || col > -1 || col < 4` for `GLuint`
`row`, `col`: in each comparison the `int` literal is converted to `GLuint`. -/
def boundsAssert (row col : Nat) : Bool :=
  decide (row > toGLuint (-1)) || decide (row < toGLuint 4) ||
    decide (col > toGLuint (-1)) || decide (col < toGLuint 4)

/-- What can go wrong in an element access. -/
inductive AccessFault where
  | assertionFailed
  | outOfBounds
  deriving DecidableEq, Repr

/-- The method `Matrix4::get(row, col)` with the assertion compiled in: the assertion, then
`data[col * 4 + row]` with the index computed in `GLuint` arithmetic.  An index outside
`data[16]` is reported as `outOfBounds`. -/
def Matrix4.get {α : Type} (m : Matrix4 α) (row col : Nat) : Except AccessFault α :=
  if boundsAssert row col then
    if h : (col * 4 + row) % 2 ^ 32 < 16 then .ok (m.data ⟨(col * 4 + row) % 2 ^ 32, h⟩)
    else .error .outOfBounds
  else .error .assertionFailed

/-- The method `Matrix4::set(row, col, val)` with the assertion compiled in. -/
def Matrix4.set {α : Type} (m : Matrix4 α) (row col : Nat) (val : α) :
    Except AccessFault (Matrix4 α) :=
  if boundsAssert row col then
    if h : (col * 4 + row) % 2 ^ 32 < 16 then .ok (m.write ⟨(col * 4 + row) % 2 ^ 32, h⟩ val)
    else .error .outOfBounds
  else .error .assertionFailed

/-! ## Helper lemmas -/

theorem forRange4_eq {σ : Type} (body : Fin 4 → σ → σ) (s : σ) :
    forRange4 body s = body 3 (body 2 (body 1 (body 0 s))) := rfl

theorem idx_surj (m : Fin 16) : ∃ i j : Fin 4, idx i j = m := by
  revert m; decide

theorem Matrix4.ext_idx {α : Type} {A B : Matrix4 α}
    (h : ∀ i j : Fin 4, A.data (idx i j) = B.data (idx i j)) : A = B := by
  cases A with | mk f => cases B with | mk g =>
  congr 1
  funext m
  obtain ⟨i, j, rfl⟩ := idx_surj m
  exact h i j

theorem ofRowCol_data {α : Type} (f : Fin 4 → Fin 4 → α) (r c : Fin 4) :
    (ofRowCol f).data (idx r c) = f r c := by
  have hr : (⟨(idx r c).val % 4, by omega⟩ : Fin 4) = r := by
    apply Fin.ext; simp only [idx]; omega
  have hc : (⟨(idx r c).val / 4, by omega⟩ : Fin 4) = c := by
    apply Fin.ext; simp only [idx]; omega
  simp only [ofRowCol, hr, hc]

section Lemmas

variable {α : Type} [CommRing α]

theorem idx_inj {i j i' j' : Fin 4} : idx i j = idx i' j' ↔ i = i' ∧ j = j' := by
  revert i j i' j'; decide

theorem ctor_data (raw : Matrix4 α) (i j : Fin 4) :
    (Matrix4.ctor raw).data (idx i j) = if i = j then 1 else 0 := by
  simp only [Matrix4.ctor, forRange4_eq, Matrix4.write]
  fin_cases i <;> fin_cases j <;> simp [Function.update_apply, idx_inj]

theorem ctor_raw (raw : Matrix4 α) : Matrix4.ctor raw = identity :=
  Matrix4.ext_idx fun i j => by rw [identity, ctor_data, ctor_data]

theorem multiplyBody_a (i j : Fin 4) (f : MultiplyFrame α) : (multiplyBody i j f).a = f.a := rfl

theorem multiplyBody_b (i j : Fin 4) (f : MultiplyFrame α) : (multiplyBody i j f).b = f.b := rfl

theorem multiplyBody_result (i j : Fin 4) (f : MultiplyFrame α) (n : Fin 16) :
    (multiplyBody i j f).result.data n =
      if n = idx i j then ∑ k : Fin 4, f.a.data (idx i k) * f.b.data (idx k j)
      else f.result.data n := by
  simp only [multiplyBody, forRange4_eq, Matrix4.write, Function.update_apply, if_true,
    Fin.sum_univ_four]
  split_ifs
  · ring
  · rfl

theorem multiplyRun_a (a b : Matrix4 α) : (multiplyRun a b).a = a := rfl

theorem multiplyRun_b (a b : Matrix4 α) : (multiplyRun a b).b = b := rfl

theorem multiply_data (a b : Matrix4 α) (i j : Fin 4) :
    (multiply a b).data (idx i j) = ∑ k : Fin 4, a.data (idx i k) * b.data (idx k j) := by
  simp only [multiply, multiplyRun, forRange4_eq, multiplyBody_result, multiplyBody_a,
    multiplyBody_b, idx_inj]
  fin_cases i <;> fin_cases j <;> simp

theorem identity_data (i j : Fin 4) :
    (identity : Matrix4 α).data (idx i j) = if i = j then 1 else 0 :=
  ctor_data _ i j

theorem applyTo_multiply (A B : Matrix4 α) (v : Fin 4 → α) :
    applyTo (multiply A B) v = applyTo A (applyTo B v) := by
  funext i
  simp only [applyTo, multiply_data, Fin.sum_univ_four]
  ring

theorem applyTo_identity (v : Fin 4 → α) : applyTo identity v = v := by
  funext i
  simp only [applyTo, identity_data, Fin.sum_univ_four]
  fin_cases i <;> simp

theorem translateResult_data (x y z : α) (r c : Fin 4) :
    (translateResult x y z).data (idx r c) =
      if r = 0 ∧ c = 3 then x else if r = 1 ∧ c = 3 then y else if r = 2 ∧ c = 3 then z
      else if r = c then 1 else 0 := by
  have h12 : (12 : Fin 16) = idx 0 3 := rfl
  have h13 : (13 : Fin 16) = idx 1 3 := rfl
  have h14 : (14 : Fin 16) = idx 2 3 := rfl
  simp only [translateResult, Matrix4.write, h12, h13, h14, Function.update_apply, idx_inj,
    identity_data]
  fin_cases r <;> fin_cases c <;> simp

theorem scaleResult_data (x y z : α) (r c : Fin 4) :
    (scaleResult x y z).data (idx r c) =
      if r = 0 ∧ c = 0 then x else if r = 1 ∧ c = 1 then y else if r = 2 ∧ c = 2 then z
      else if r = c then 1 else 0 := by
  have h0 : (0 : Fin 16) = idx 0 0 := rfl
  have h5 : (5 : Fin 16) = idx 1 1 := rfl
  have h10 : (10 : Fin 16) = idx 2 2 := rfl
  simp only [scaleResult, Matrix4.write, h0, h5, h10, Function.update_apply, idx_inj,
    identity_data]
  fin_cases r <;> fin_cases c <;> simp

theorem applyTo_translateResult (x y z : α) (v : Fin 4 → α) :
    applyTo (translateResult x y z) v =
      ![v 0 + x * v 3, v 1 + y * v 3, v 2 + z * v 3, v 3] := by
  funext i
  simp only [applyTo, translateResult_data, Fin.sum_univ_four]
  fin_cases i <;> simp

theorem applyTo_scaleResult (x y z : α) (v : Fin 4 → α) :
    applyTo (scaleResult x y z) v = ![x * v 0, y * v 1, z * v 2, v 3] := by
  funext i
  simp only [applyTo, scaleResult_data, Fin.sum_univ_four]
  fin_cases i <;> simp

theorem multiply_identity_left (B : Matrix4 α) : multiply identity B = B := by
  apply Matrix4.ext_idx
  intro i j
  simp only [multiply_data, identity_data, Fin.sum_univ_four]
  fin_cases i <;> simp

theorem rotateResult_data (cos sin : α → α) (a x y z : α) (r c : Fin 4) :
    (rotateResult cos sin a x y z).data (idx r c) =
      if r = 0 ∧ c = 0 then cos a + (x * x) * (1 - cos a)
      else if r = 1 ∧ c = 0 then y * x * (1 - cos a) + z * sin a
      else if r = 2 ∧ c = 0 then z * x * (1 - cos a) - y * sin a
      else if r = 0 ∧ c = 1 then x * y * (1 - cos a) - z * sin a
      else if r = 1 ∧ c = 1 then cos a + (y * y) * (1 - cos a)
      else if r = 2 ∧ c = 1 then z * y * (1 - cos a) + x * sin a
      else if r = 0 ∧ c = 2 then x * z * (1 - cos a) + y * sin a
      else if r = 1 ∧ c = 2 then y * z * (1 - cos a) - x * sin a
      else if r = 2 ∧ c = 2 then cos a + (z * z) * (1 - cos a)
      else if r = c then 1 else 0 := by
  have h0 : (0 : Fin 16) = idx 0 0 := rfl
  have h1 : (1 : Fin 16) = idx 1 0 := rfl
  have h2 : (2 : Fin 16) = idx 2 0 := rfl
  have h4 : (4 : Fin 16) = idx 0 1 := rfl
  have h5 : (5 : Fin 16) = idx 1 1 := rfl
  have h6 : (6 : Fin 16) = idx 2 1 := rfl
  have h8 : (8 : Fin 16) = idx 0 2 := rfl
  have h9 : (9 : Fin 16) = idx 1 2 := rfl
  have h10 : (10 : Fin 16) = idx 2 2 := rfl
  simp only [rotateResult, Matrix4.write, h0, h1, h2, h4, h5, h6, h8, h9, h10,
    Function.update_apply, idx_inj, identity_data]
  fin_cases r <;> fin_cases c <;> simp

theorem applyTo_rotateResult (cos sin : α → α) (a x y z : α) (v : Fin 4 → α) :
    applyTo (rotateResult cos sin a x y z) v =
      ![(cos a + (x * x) * (1 - cos a)) * v 0 + (x * y * (1 - cos a) - z * sin a) * v 1
          + (x * z * (1 - cos a) + y * sin a) * v 2,
        (y * x * (1 - cos a) + z * sin a) * v 0 + (cos a + (y * y) * (1 - cos a)) * v 1
          + (y * z * (1 - cos a) - x * sin a) * v 2,
        (z * x * (1 - cos a) - y * sin a) * v 0 + (z * y * (1 - cos a) + x * sin a) * v 1
          + (cos a + (z * z) * (1 - cos a)) * v 2,
        v 3] := by
  funext i
  simp only [applyTo, rotateResult_data, Fin.sum_univ_four]
  fin_cases i <;> simp

end Lemmas

/-! ## The claims -/

section Claims

variable {α : Type} [CommRing α]

/-- C1: `multiply(A, B)` is the matrix product in the column-major layout: the element at
the linear index `i + 4 * j` is the sum over `k` of `A.data[i + 4*k] * B.data[k + 4*j]`;
the parameters `a` and `b` of the call hold `A` and `B` when the loops have run. -/
theorem multiply_is_matrix_product (A B : Matrix4 α) :
    (∀ i j : Fin 4, (idx i j).val = i.val + 4 * j.val ∧
        (multiply A B).data (idx i j) = ∑ k : Fin 4, A.data (idx i k) * B.data (idx k j)) ∧
      (multiplyRun A B).a = A ∧ (multiplyRun A B).b = B := by
  refine ⟨fun i j => ⟨?_, multiply_data A B i j⟩, multiplyRun_a A B, multiplyRun_b A B⟩
  simp only [idx]
  omega

/-- C7: `multiply` is associative: `multiply(multiply(A, B), C)` and
`multiply(A, multiply(B, C))` are the same matrix. -/
theorem multiply_assoc (A B C : Matrix4 α) :
    multiply (multiply A B) C = multiply A (multiply B C) := by
  apply Matrix4.ext_idx
  intro i j
  simp only [multiply_data, Fin.sum_univ_four]
  ring

/-- C5: `translate(mat, x, y, z)` is `multiply(mat, T)` for the identity `T` with the linear
indices 12, 13, 14 (rows 0..2 of column 3) set to `x`, `y`, `z`; `translate(identity, x, y, z)`
maps the point `(px, py, pz, 1)` to `(px + x, py + y, pz + z, 1)`, and
`translate(identity, 2, 3, 4)` maps `(0, 0, 0, 1)` to `(2, 3, 4, 1)`. -/
theorem translate_eq_multiply_specTranslation (mat : Matrix4 α) (x y z px py pz : α) :
    translate mat x y z = multiply mat (specTranslation x y z) ∧
      (idx 0 3 = 12 ∧ idx 1 3 = 13 ∧ idx 2 3 = 14) ∧
      applyTo (translate identity x y z) ![px, py, pz, 1] = ![px + x, py + y, pz + z, 1] ∧
      applyTo (translate (identity : Matrix4 ℚ) 2 3 4) ![0, 0, 0, 1] = ![2, 3, 4, 1] := by
  refine ⟨?_, ⟨rfl, rfl, rfl⟩, ?_, ?_⟩
  · have hT : translateResult x y z = specTranslation x y z :=
      Matrix4.ext_idx fun r c => by
        rw [translateResult_data, specTranslation, ofRowCol_data]
    rw [translate, hT]
  · simp [translate, multiply_identity_left, applyTo_translateResult]
  · simp [translate, multiply_identity_left, applyTo_translateResult]

/-- C6: `scale(mat, x, y, z)` is `multiply(mat, S)` for the identity `S` with the diagonal
elements `(0,0)`, `(1,1)`, `(2,2)` replaced by `x`, `y`, `z`; `scale(identity, x, y, z)` maps
the point `(px, py, pz, 1)` to `(x * px, y * py, z * pz, 1)`, and `scale(identity, 2, 0.5, 1)`
maps `(1, 1, 1, 1)` to `(2, 0.5, 1, 1)`. -/
theorem scale_eq_multiply_specScaling (mat : Matrix4 α) (x y z px py pz : α) :
    scale mat x y z = multiply mat (specScaling x y z) ∧
      applyTo (scale identity x y z) ![px, py, pz, 1] = ![x * px, y * py, z * pz, 1] ∧
      applyTo (scale (identity : Matrix4 ℚ) 2 0.5 1) ![1, 1, 1, 1] = ![2, 0.5, 1, 1] := by
  refine ⟨?_, ?_, ?_⟩
  · have hS : scaleResult x y z = specScaling x y z :=
      Matrix4.ext_idx fun r c => by
        rw [scaleResult_data, specScaling, ofRowCol_data]
    rw [scale, hS]
  · simp [scale, multiply_identity_left, applyTo_scaleResult]
  · simp [scale, multiply_identity_left, applyTo_scaleResult]

/-- C4: for a unit axis `(x, y, z)` and an angle with `cos a ^ 2 + sin a ^ 2 = 1`, the
upper-left 3x3 block `R` of `rotate(identity, a, x, y, z)` satisfies `transpose R * R = I`
and `R * (x, y, z) = (x, y, z)` and has determinant `1`, and the fourth row and the fourth
column of the matrix are `(0, 0, 0, 1)`. -/
theorem rotate_identity_rigid (cos sin : α → α) (a x y z : α)
    (haxis : x * x + y * y + z * z = 1) (htrig : cos a ^ 2 + sin a ^ 2 = 1) :
    (∀ i j : Fin 3,
        ∑ k : Fin 3, block3 (rotate cos sin identity a x y z) k i *
            block3 (rotate cos sin identity a x y z) k j = if i = j then 1 else 0) ∧
      (∀ i : Fin 3,
        ∑ k : Fin 3, block3 (rotate cos sin identity a x y z) i k * ![x, y, z] k
          = ![x, y, z] i) ∧
      (Matrix.of (block3 (rotate cos sin identity a x y z))).det = 1 ∧
      (∀ j : Fin 4, (rotate cos sin identity a x y z).data (idx 3 j) = if j = 3 then 1 else 0) ∧
      (∀ i : Fin 4, (rotate cos sin identity a x y z).data (idx i 3) = if i = 3 then 1 else 0) := by
  have c2 : Fin.castSucc (2 : Fin 3) = (2 : Fin 4) := rfl
  simp only [rotate, multiply_identity_left, block3, rotateResult_data, Fin.sum_univ_three]
  refine ⟨?_, ?_, ?_, ?_, ?_⟩
  · intro i j
    fin_cases i <;> fin_cases j <;> simp [c2]
    · linear_combination (sin a ^ 2 * 1 + (1 - cos a) ^ 2 * (x * x)) * haxis
        + (1 - x * x) * htrig
    · linear_combination (sin a ^ 2 * 0 + (1 - cos a) ^ 2 * (x * y)) * haxis
        + (0 - x * y) * htrig
    · linear_combination (sin a ^ 2 * 0 + (1 - cos a) ^ 2 * (x * z)) * haxis
        + (0 - x * z) * htrig
    · linear_combination (sin a ^ 2 * 0 + (1 - cos a) ^ 2 * (y * x)) * haxis
        + (0 - y * x) * htrig
    · linear_combination (sin a ^ 2 * 1 + (1 - cos a) ^ 2 * (y * y)) * haxis
        + (1 - y * y) * htrig
    · linear_combination (sin a ^ 2 * 0 + (1 - cos a) ^ 2 * (y * z)) * haxis
        + (0 - y * z) * htrig
    · linear_combination (sin a ^ 2 * 0 + (1 - cos a) ^ 2 * (z * x)) * haxis
        + (0 - z * x) * htrig
    · linear_combination (sin a ^ 2 * 0 + (1 - cos a) ^ 2 * (z * y)) * haxis
        + (0 - z * y) * htrig
    · linear_combination (sin a ^ 2 * 1 + (1 - cos a) ^ 2 * (z * z)) * haxis
        + (1 - z * z) * htrig
  · intro i
    fin_cases i <;> simp [c2]
    · linear_combination (1 - cos a) * x * haxis
    · linear_combination (1 - cos a) * y * haxis
    · linear_combination (1 - cos a) * z * haxis
  · rw [Matrix.det_fin_three]
    simp [Matrix.of_apply, block3, rotateResult_data, c2]
    linear_combination
      (sin a ^ 2 + (1 - cos a) * (cos a ^ 2 + sin a ^ 2 * (x * x + y * y + z * z))) * haxis
        + htrig
  · intro j
    fin_cases j <;> simp
  · intro i
    fin_cases i <;> simp

/-- Witness of C4: the axis `(2/3, 1/3, 2/3)` with `cos a = 3/5`, `sin a = 4/5`. -/
theorem rotate_identity_rigid_witness :
    ((2 / 3 : ℚ) * (2 / 3) + (1 / 3) * (1 / 3) + (2 / 3) * (2 / 3) = 1 ∧
      ((fun _ => 3 / 5) (1 : ℚ) : ℚ) ^ 2 + ((fun _ => 4 / 5) (1 : ℚ) : ℚ) ^ 2 = 1) ∧
      ∑ k : Fin 3,
        block3 (rotate (fun _ => 3 / 5) (fun _ => 4 / 5) (identity : Matrix4 ℚ) 1
            (2 / 3) (1 / 3) (2 / 3)) k 0 *
          block3 (rotate (fun _ => 3 / 5) (fun _ => 4 / 5) (identity : Matrix4 ℚ) 1
            (2 / 3) (1 / 3) (2 / 3)) k 1 = 0 :=
  ⟨⟨by norm_num, by norm_num⟩,
    (rotate_identity_rigid (fun _ => 3 / 5) (fun _ => 4 / 5) (1 : ℚ) (2 / 3) (1 / 3) (2 / 3)
      (by norm_num) (by norm_num)).1 0 1⟩

/-- C3 (the code at a failing input): `translate(rotate(identity, a, x, y, z), tx, ty, tz)`
maps the origin `(0, 0, 0, 1)` to the rotation applied to `(tx, ty, tz, 1)`, the translation
reaching the point first.  For the real quarter turn (`a = π / 2`, where `cos a = 0` and
`sin a = 1`) about `(0, 0, 1)` with offsets `(1, 0, 0)` the result is `(0, 1, 0, 1)` and
differs from `(1, 0, 0, 1)`. -/
theorem translate_rotate_origin (cos sin : α → α) (a x y z tx ty tz : α) :
    applyTo (translate (rotate cos sin identity a x y z) tx ty tz) ![0, 0, 0, 1] =
        applyTo (rotateResult cos sin a x y z) ![tx, ty, tz, 1] ∧
      applyTo (translate (rotate Real.cos Real.sin (identity : Matrix4 ℝ) (Real.pi / 2) 0 0 1)
        1 0 0) ![0, 0, 0, 1] = ![0, 1, 0, 1] ∧
      applyTo (translate (rotate Real.cos Real.sin (identity : Matrix4 ℝ) (Real.pi / 2) 0 0 1)
        1 0 0) ![0, 0, 0, 1] ≠ ![1, 0, 0, 1] := by
  have h : applyTo (translate (rotate Real.cos Real.sin (identity : Matrix4 ℝ)
      (Real.pi / 2) 0 0 1) 1 0 0) ![0, 0, 0, 1] = ![0, 1, 0, 1] := by
    simp [translate, rotate, applyTo_multiply, applyTo_identity, applyTo_rotateResult,
      applyTo_translateResult]
  refine ⟨?_, h, ?_⟩
  · simp [translate, rotate, applyTo_multiply, applyTo_identity, applyTo_translateResult]
  · rw [h]
    intro hv
    have h0 := congrFun hv 0
    simp at h0

end Claims

section Frame

variable {α : Type} [Field α]

/-- C10: the model matrix of the render loop,
`scale(rotate(translate(identity, tx, ty, 0), a, 0, 0, 1), 0.35, 0.35, 0.35)`, applies the
scale, then the rotation, then the translation to a vertex: `(px, py, pz, 1)` goes to
`(0.35 * (cos a * px - sin a * py) + tx, 0.35 * (sin a * px + cos a * py) + ty, 0.35 * pz, 1)`;
`model` is this matrix for the time-derived parameters of `Main.cpp`. -/
theorem model_scale_then_rotate_then_translate (cos sin : α → α) (tx ty a px py pz : α)
    (t₁ t₂ t₃ : α) :
    applyTo (scale (rotate cos sin (translate identity tx ty 0) a 0 0 1) 0.35 0.35 0.35)
        ![px, py, pz, 1] =
        ![0.35 * (cos a * px - sin a * py) + tx, 0.35 * (sin a * px + cos a * py) + ty,
          0.35 * pz, 1] ∧
      applyTo (scale (rotate cos sin (translate identity tx ty 0) a 0 0 1) 0.35 0.35 0.35)
        ![px, py, pz, 1] =
        applyTo (translateResult tx ty 0) (applyTo (rotateResult cos sin a 0 0 1)
          (applyTo (scaleResult 0.35 0.35 0.35) ![px, py, pz, 1])) ∧
      model cos sin t₁ t₂ t₃ =
        scale (rotate cos sin (translate identity (0.75 * sin (2.5 * t₁))
          (0.75 * cos (2.5 * t₂)) 0) (250 * t₃) 0 0 1) 0.35 0.35 0.35 := by
  refine ⟨?_, ?_, rfl⟩
  · simp only [scale, rotate, translate, applyTo_multiply, applyTo_identity,
      applyTo_scaleResult, applyTo_rotateResult, applyTo_translateResult]
    funext i
    fin_cases i <;> simp <;> ring
  · simp only [scale, rotate, translate, applyTo_multiply, applyTo_identity]

end Frame

/-- C8 (the code at a failing input): `rotate(identity, 180, 0, 0, 1)` with the real `cos` and
`sin` maps `(1, 0, 0, 1)` to `(cos 180, sin 180, 0, 1)`, the angle being read in radians, and
this is not `(-1, 0, 0, 1)`; the angle `180 * (π / 180)`, that is 180 degrees converted to
radians, does give `(-1, 0, 0, 1)`. -/
theorem rotate_180_reads_radians :
    applyTo (rotate Real.cos Real.sin (identity : Matrix4 ℝ) 180 0 0 1) ![1, 0, 0, 1] =
        ![Real.cos 180, Real.sin 180, 0, 1] ∧
      applyTo (rotate Real.cos Real.sin (identity : Matrix4 ℝ) 180 0 0 1) ![1, 0, 0, 1] ≠
        ![-1, 0, 0, 1] ∧
      applyTo (rotate Real.cos Real.sin (identity : Matrix4 ℝ) (180 * (Real.pi / 180)) 0 0 1)
        ![1, 0, 0, 1] = ![-1, 0, 0, 1] := by
  have h : applyTo (rotate Real.cos Real.sin (identity : Matrix4 ℝ) 180 0 0 1) ![1, 0, 0, 1] =
      ![Real.cos 180, Real.sin 180, 0, 1] := by
    simp [rotate, applyTo_multiply, applyTo_identity, applyTo_rotateResult]
  refine ⟨h, ?_, ?_⟩
  swap
  · have hpi : (180 : ℝ) * (Real.pi / 180) = Real.pi := by ring
    simp [hpi, rotate, applyTo_multiply, applyTo_identity, applyTo_rotateResult]
  rw [h]
  intro hv
  have hs : Real.sin 180 = 0 := by
    have := congrFun hv 1
    simpa using this
  obtain ⟨n, hn⟩ := Real.sin_eq_zero_iff.mp hs
  have hlo := Real.pi_gt_d2
  have hhi := Real.pi_lt_d2
  rcases le_or_lt n 57 with h57 | h58
  · have : (n : ℝ) ≤ 57 := by exact_mod_cast h57
    nlinarith
  · have : (58 : ℝ) ≤ n := by exact_mod_cast h58
    nlinarith

/-- C9 (counterexample): for `row = 4`, `col = 4` the asserted condition is false, and `get`
stops on the assertion. -/
theorem boundsAssert_rejects_4_4 :
    (4 < 2 ^ 32 ∧ boundsAssert 4 4 = false) ∧
      (identity : Matrix4 ℤ).get 4 4 = .error .assertionFailed := by
  refine ⟨⟨by decide, by decide⟩, ?_⟩
  simp [Matrix4.get, show boundsAssert 4 4 = false by decide]

/-- C9 (amended): for `GLuint` values `row`, `col` the comparisons with `-1` are false, the
asserted condition holds exactly when `row < 4` or `col < 4`, and `get` and `set` stop on
the assertion exactly when `4 ≤ row` and `4 ≤ col`. -/
theorem boundsAssert_iff {α : Type} (m : Matrix4 α) (val : α) (row col : Nat)
    (hrow : row < 2 ^ 32) (hcol : col < 2 ^ 32) :
    (¬ row > toGLuint (-1) ∧ ¬ col > toGLuint (-1)) ∧
      (boundsAssert row col = true ↔ row < 4 ∨ col < 4) ∧
      (m.get row col = .error .assertionFailed ↔ 4 ≤ row ∧ 4 ≤ col) ∧
      (m.set row col val = .error .assertionFailed ↔ 4 ≤ row ∧ 4 ≤ col) := by
  have hm1 : toGLuint (-1) = 2 ^ 32 - 1 := by decide
  have h4 : toGLuint 4 = 4 := by decide
  have hb : boundsAssert row col = true ↔ row < 4 ∨ col < 4 := by
    simp only [boundsAssert, hm1, h4, Bool.or_eq_true, decide_eq_true_eq]
    omega
  refine ⟨⟨by omega, by omega⟩, hb, ?_, ?_⟩
  · unfold Matrix4.get
    split_ifs with h1 h2
    · simp only [reduceCtorEq, false_iff]
      have := hb.mp h1
      omega
    · simp only [Except.error.injEq, reduceCtorEq, false_iff]
      have := hb.mp h1
      omega
    · simp only [true_iff]
      have := mt hb.mpr h1
      omega
  · unfold Matrix4.set
    split_ifs with h1 h2
    · simp only [reduceCtorEq, false_iff]
      have := hb.mp h1
      omega
    · simp only [Except.error.injEq, reduceCtorEq, false_iff]
      have := hb.mp h1
      omega
    · simp only [true_iff]
      have := mt hb.mpr h1
      omega

/-- Witness of C9 (amended): the out-of-range pair `(0, 7)` passes the assertion. -/
theorem boundsAssert_iff_witness :
    (0 < 2 ^ 32 ∧ 7 < 2 ^ 32) ∧ (boundsAssert 0 7 = true ↔ 0 < 4 ∨ 7 < 4) :=
  ⟨⟨by decide, by decide⟩,
    (boundsAssert_iff (identity : Matrix4 ℤ) 0 0 7 (by decide) (by decide)).2.1⟩

end TransformationHW
